import Mathlib

/-!
Verification model of the cs-files-zh-en downloader.

The definitions below are a shallow embedding of the Python sources under
`src/cs_files_zh_en/`: byte buffers become `List Nat`, strings become
`List Char`, fallible calls become `Except`/`Option` values, and the
external collaborators (Steam session, CDN, the third-party vpk library)
are carried as explicit data in an `Env`/`VpkDir` record.  Each definition
cites the Python function it embeds.
-/

/-- UTF-8 byte-order-mark triplet `EF BB BF` tested by `trim_bom`. -/
def bomBytes : List Nat := [0xEF, 0xBB, 0xBF]

/-- Model of `utils/file_utils.trim_bom` (identical to `main.trim_bom`) on a
bytes buffer: drop a leading `EF BB BF` triplet when the buffer has at least
three bytes, otherwise return the buffer unchanged. -/
def trim_bom (data : List Nat) : List Nat :=
  if 3 ≤ data.length ∧ data.take 3 = bomBytes then data.drop 3 else data

/-- Model of Python `filename.replace("\\", "/")` used to normalize manifest
paths in `main.py` and `cdn/steam_cdn.py`. -/
def normalizeSlashes (p : List Char) : List Char :=
  p.map (fun c => if c = '\\' then '/' else c)

/-- Model of Python `target_file.split("/")[-1]`: the suffix of the path after
the last slash. -/
def basename (p : List Char) : List Char :=
  (p.reverse.takeWhile (fun c => c ≠ '/')).reverse

/-- ASCII whitespace test backing the model of Python `str.strip()`. -/
def isPySpace (c : Char) : Bool :=
  c = ' ' || c = '\t' || c = '\n' || c = '\r'

/-- Model of Python `str.strip()` as applied to the stored manifest id in
`main.py` line 452 and `utils/file_utils.read_manifest_id`. -/
def pyStrip (l : List Char) : List Char :=
  ((l.dropWhile isPySpace).reverse.dropWhile isPySpace).reverse

/-- Decimal digit character for a value below ten, as produced by Python
decimal formatting. -/
def digitChar (d : Nat) : Char :=
  match d with
  | 0 => '0' | 1 => '1' | 2 => '2' | 3 => '3' | 4 => '4'
  | 5 => '5' | 6 => '6' | 7 => '7' | 8 => '8' | 9 => '9'
  | _ => '*'

/-- Numeric value of a decimal digit character. -/
def charToDigit (c : Char) : Nat := c.toNat - 48

/-- Decimal representation of a natural number, most significant digit
first, as produced by Python `str`/`format`. -/
def natToDecimal (n : Nat) : List Char :=
  if h : n < 10 then [digitChar n]
  else natToDecimal (n / 10) ++ [digitChar (n % 10)]
termination_by n
decreasing_by
  exact Nat.div_lt_self (by omega) (by omega)

/-- Model of the Python format spec `f"{archive_index:03d}"` used in
`download_vpk_archives`: the decimal digits left-padded with zeros to a
minimum width of three. -/
def pad3 (n : Nat) : List Char :=
  let ds := natToDecimal n
  List.replicate (3 - ds.length) '0' ++ ds

/-- Numeric value of a digit string, as computed by Python `int(...)` on the
regex capture group. -/
def digitsVal (ds : List Char) : Nat :=
  ds.foldl (fun a c => a * 10 + charToDigit c) 0

/-- Literal token `pak01_` of the recovery pattern in
`vpk/vpk_handler.py` line 161 (and `main.py` line 188). -/
def pak01Lit : List Char := "pak01_".toList

/-- Extension token `.vpk` of the recovery pattern. -/
def vpkExtLit : List Char := ".vpk".toList

/-- Model of one anchored attempt of the regex `pak01_(\d+)\.vpk` at the head
of `s`: the literal token, then a non-empty maximal digit run, then the
extension token.  Shortening the greedy digit run can never help the match
because the character after a shortened run is itself a digit, so the
maximal-run formulation coincides with the backtracking semantics. -/
def matchAt (s : List Char) : Option Nat :=
  if s.take 6 = pak01Lit then
    let rest := s.drop 6
    let ds := rest.takeWhile Char.isDigit
    if ds.length ≠ 0 ∧ (rest.drop ds.length).take 4 = vpkExtLit then
      some (digitsVal ds)
    else none
  else none

/-- Model of `re.search(r"pak01_(\d+)\.vpk", error_msg)` followed by
`int(match.group(1))`: try the anchored match at each position from the
left and return the first hit. -/
def searchPak : List Char → Option Nat
  | [] => none
  | c :: cs =>
    match matchAt (c :: cs) with
    | some n => some n
    | none => searchPak cs

/-- Model of the Python substring test `pat in s`. -/
def containsSub (s pat : List Char) : Bool :=
  (List.range (s.length + 1)).any (fun i => pat.isPrefixOf (s.drop i))

/-- Model of the `FileNotFoundError` handler of
`VPKProcessor._get_archive_index_multiple_methods` (`vpk/vpk_handler.py`
lines 157-165, same logic at `main.py` lines 182-191): guard on the two
substring tests, then run the regex search. -/
def recover_index_from_error (msg : List Char) : Option Nat :=
  if containsSub msg pak01Lit && containsSub msg vpkExtLit then
    searchPak msg
  else none

/-- Sentinel archive index `0x7FFF` meaning "entry embedded in the directory
index itself" (`vpk/vpk_handler.py` lines 84 and 111, `main.py` lines 136
and 195). -/
def sentinelIndex : Nat := 0x7FFF

/-- Decoded metadata record of one VPK directory entry.  The Python code
probes several attribute names (`archive_index`, `archiveIndex`, dict key)
on the third-party object; the embedding collapses that probing into a
single optional field, `none` meaning that no probe succeeded. -/
structure FileMeta where
  archive_index : Option Nat
deriving DecidableEq

/-- Model of `VPKProcessor._get_archive_index_from_metadata`
(`vpk/vpk_handler.py` lines 121-132): the attribute probing over the
collapsed record. -/
def get_archive_index_from_metadata (m : FileMeta) : Option Nat :=
  m.archive_index

/-- Outcome of the `get_vpkfile_instance` call of Strategy B
(`vpk/vpk_handler.py` lines 150-167): the call returns an object that may or
may not expose `archive_index`, raises `FileNotFoundError` with a message,
or raises some other exception. -/
inductive VpkfileOutcome where
  | ok (archive_index : Option Nat)
  | fileNotFound (msg : List Char)
  | otherError
deriving DecidableEq

/-- Error-path part of `_get_archive_index_multiple_methods`: the vpkfile
instance's attribute when the call succeeds, the message recovery when it
raises `FileNotFoundError`, `none` on any other exception. -/
def vpkfile_index (o : VpkfileOutcome) : Option Nat :=
  match o with
  | .ok idx => idx
  | .fileNotFound msg => recover_index_from_error msg
  | .otherError => none

/-- Model of `VPKProcessor._get_archive_index_multiple_methods`
(`vpk/vpk_handler.py` lines 134-169, same logic at `main.py` lines
158-193): Method 1 reads the decoded metadata (`meta = none` models a
failing or absent `get_file_meta`); when that yields no index, Method 2
inspects the `get_vpkfile_instance` outcome. -/
def get_archive_index_multiple_methods (meta : Option FileMeta)
    (outcome : VpkfileOutcome) : Option Nat :=
  match meta with
  | some m =>
    match get_archive_index_from_metadata m with
    | some i => some i
    | none => vpkfile_index outcome
  | none => vpkfile_index outcome

/-- One entry of the parsed VPK directory tree (Strategy A view). -/
structure TreeEntry where
  path : List Char
  meta : FileMeta
deriving DecidableEq

/-- One logical path of the VPK directory as seen through iteration
(Strategy B view), together with the data the lookup machinery would
produce for it: the `get_file_meta` result, the `get_vpkfile_instance`
outcome, and the `vpk_dir[filepath].read()` outcome used at extraction. -/
structure VpkFileEntry where
  path : List Char
  meta : Option FileMeta
  outcome : VpkfileOutcome
  readResult : Except Unit (List Nat)

/-- Parsed VPK directory as the orchestrator sees it: an optional tree
(`hasattr(vpk_dir, "tree") and vpk_dir.tree is not None`) and the iteration
view. -/
structure VpkDir where
  tree : Option (List TreeEntry)
  files : List VpkFileEntry

/-- Model of `VPKProcessor._extract_indices_from_tree` (`vpk/vpk_handler.py`
lines 71-94, same logic at `main.py` lines 115-145) collecting, in tree
order, the archive index of every entry whose path extends some target
path, filtering `None` and the sentinel.  The Python code accumulates into
a set; the embedding collects the raw list and defers the set semantics to
`get_required_archive_indices`. -/
def extract_indices_from_tree (targets : List (List Char)) :
    List TreeEntry → List Nat
  | [] => []
  | e :: rest =>
    let tail := extract_indices_from_tree targets rest
    if targets.any (fun t => t.isPrefixOf e.path) then
      match get_archive_index_from_metadata e.meta with
      | some i => if i ≠ sentinelIndex then i :: tail else tail
      | none => tail
    else tail

/-- Model of `VPKProcessor._extract_indices_from_iteration`
(`vpk/vpk_handler.py` lines 96-119, same logic at `main.py` lines
147-205): the same filter, with the index obtained through
`_get_archive_index_multiple_methods`. -/
def extract_indices_from_iteration (targets : List (List Char)) :
    List VpkFileEntry → List Nat
  | [] => []
  | e :: rest =>
    let tail := extract_indices_from_iteration targets rest
    if targets.any (fun t => t.isPrefixOf e.path) then
      match get_archive_index_multiple_methods e.meta e.outcome with
      | some i => if i ≠ sentinelIndex then i :: tail else tail
      | none => tail
    else tail

/-- Model of `VPKProcessor.get_required_archive_indices`
(`vpk/vpk_handler.py` lines 42-69, same logic at `main.py` lines 104-208):
pick the strategy by tree availability, then return
`sorted(list(required_indices))` of the collected set — here the sorted
listing of the finite set of collected indices. -/
def get_required_archive_indices (targets : List (List Char))
    (d : VpkDir) : List Nat :=
  let collected :=
    match d.tree with
    | some t => extract_indices_from_tree targets t
    | none => extract_indices_from_iteration targets d.files
  collected.toFinset.sort (· ≤ ·)

/-- One remote file descriptor of the depot manifest: a raw path (possibly
with backslashes) and the outcome of its `read()` call. -/
structure ManifestEntry where
  filename : List Char
  read : Except Unit (List Nat)

/-- Target path list `Config.VPK_FILES` (`config.py`, also `main.py` lines
24-28). -/
def VPK_FILES : List (List Char) :=
  ["resource/csgo_english.txt".toList,
   "resource/csgo_schinese.txt".toList,
   "scripts/items/items_game.txt".toList]

/-- Output directory prefix of `Config.STATIC_DIR`. -/
def staticPrefix : List Char := "static/".toList

/-- Working directory prefix of `Config.TEMP_DIR`. -/
def tempPrefix : List Char := "temp/".toList

/-- Bookkeeping of the direct-extraction pass: `read()` calls made,
successfully extracted targets, and the file writes performed. -/
structure ExtractStats where
  reads : Nat
  count : Nat
  writes : List (List Char × List Nat)

/-- Inner loop body of `extract_files_from_manifest` for one manifest entry
(`main.py` lines 261-288, same logic in
`SteamCDNManager.extract_files_directly`): for every target equal to the
normalized path, attempt the read; on success strip the marker and save
under the basename, on failure log and continue. -/
def extractDirectEntry (targets : List (List Char)) (e : ManifestEntry) :
    ExtractStats :=
  targets.foldl
    (fun acc t =>
      if normalizeSlashes e.filename = t then
        match e.read with
        | .ok d =>
          ⟨acc.reads + 1, acc.count + 1,
           acc.writes ++ [(staticPrefix ++ basename t, trim_bom d)]⟩
        | .error _ => ⟨acc.reads + 1, acc.count, acc.writes⟩
      else acc)
    ⟨0, 0, []⟩

/-- Model of `main.extract_files_from_manifest` (`main.py` lines 255-291,
same logic in `SteamCDNManager.extract_files_directly`, `cdn/steam_cdn.py`
lines 90-127).  The Python function returns `extracted_count > 0`; the
model exposes the count itself so that the caller's test can be stated. -/
def extract_files_from_manifest (targets : List (List Char))
    (manifest : List ManifestEntry) : ExtractStats :=
  manifest.foldl
    (fun acc e =>
      let r := extractDirectEntry targets e
      ⟨acc.reads + r.reads, acc.count + r.count, acc.writes ++ r.writes⟩)
    ⟨0, 0, []⟩

/-- Manifest suffix of the directory part (`main.py` line 38,
`cdn/steam_cdn.py` line 148). -/
def dirVpkSuffix : List Char := "csgo/pak01_dir.vpk".toList

/-- On-disk location of the freshly downloaded directory part. -/
def tempDirVpkPath : List Char := tempPrefix ++ "pak01_dir.vpk".toList

/-- On-disk location of the cached copy of the directory part. -/
def staticDirVpkPath : List Char := staticPrefix ++ "pak01_dir.vpk".toList

/-- Result of the directory-part download: the bytes now present at the
temp path together with a flag marking the cached-copy fallback, or a fatal
error; plus the `read()` calls made and the file writes performed. -/
structure DirFetch where
  result : Except Unit (List Nat × Bool)
  reads : Nat
  writes : List (List Char × List Nat)

/-- Model of `SteamCDNManager.download_vpk_dir` (`cdn/steam_cdn.py` lines
129-175, same logic at `main.py` lines 31-74): locate the first entry whose
normalized path ends with the directory suffix (fatal if absent), read it
(saving to temp and static without marker stripping), and on a read
failure fall back to a cached static copy when one exists, otherwise
fail. -/
def download_vpk_dir (manifest : List ManifestEntry)
    (cached : Option (List Nat)) : DirFetch :=
  match manifest.find?
      (fun e => dirVpkSuffix.isSuffixOf (normalizeSlashes e.filename)) with
  | none => ⟨.error (), 0, []⟩
  | some e =>
    match e.read with
    | .ok d => ⟨.ok (d, false), 1, [(tempDirVpkPath, d), (staticDirVpkPath, d)]⟩
    | .error _ =>
      match cached with
      | some c => ⟨.ok (c, true), 1, [(tempDirVpkPath, c)]⟩
      | none => ⟨.error (), 1, []⟩

/-- Numbered part filename `f"pak01_{archive_index:03d}.vpk"`
(`cdn/steam_cdn.py` lines 188-190, `main.py` lines 216-218). -/
def partFilename (i : Nat) : List Char := pak01Lit ++ pad3 i ++ vpkExtLit

/-- Outcome of processing one required part index: no manifest entry whose
raw path ends with the numbered filename, a failing download, or saved
bytes. -/
inductive PartOutcome where
  | missing
  | fetchFailed
  | saved (data : List Nat)
deriving DecidableEq

/-- Processing of a single part index as `download_vpk_archives` performs
it: first suffix-matching manifest entry, then the read. -/
def fetchPart (manifest : List ManifestEntry) (i : Nat) : PartOutcome :=
  match manifest.find? (fun e => (partFilename i).isSuffixOf e.filename) with
  | none => .missing
  | some e =>
    match e.read with
    | .ok d => .saved d
    | .error _ => .fetchFailed

/-- Model of `SteamCDNManager.download_vpk_archives` (`cdn/steam_cdn.py`
lines 177-215, same logic at `main.py` lines 211-245): the loop over the
required indices, with `continue` on a missing entry or a failed read. -/
def download_vpk_archives (manifest : List ManifestEntry) :
    List Nat → List (Nat × PartOutcome)
  | [] => []
  | i :: rest =>
    let r :=
      match manifest.find?
          (fun e => (partFilename i).isSuffixOf e.filename) with
      | none => PartOutcome.missing
      | some e =>
        match e.read with
        | .ok d => PartOutcome.saved d
        | .error _ => PartOutcome.fetchFailed
    (i, r) :: download_vpk_archives manifest rest

/-- Count of `read()` calls made by the archive-part loop (one per index
whose manifest entry was found). -/
def partReads (rs : List (Nat × PartOutcome)) : Nat :=
  rs.foldl
    (fun a p => match p.2 with | .missing => a | _ => a + 1) 0

/-- File writes performed by the archive-part loop (saved parts only, no
marker stripping). -/
def partWrites (rs : List (Nat × PartOutcome)) :
    List (List Char × List Nat) :=
  rs.foldr
    (fun p acc =>
      match p.2 with
      | .saved d => (tempPrefix ++ partFilename p.1, d) :: acc
      | _ => acc)
    []

/-- Scan of `extract_vpk_files` for one target (`main.py` lines 299-327):
the first path extending the target whose read succeeds wins; failing reads
are logged and the scan continues.  Returns the read attempts made and the
bytes found. -/
def extractOneTarget (t : List Char) :
    List VpkFileEntry → Nat × Option (List Nat)
  | [] => (0, none)
  | e :: rest =>
    if t.isPrefixOf e.path then
      match e.readResult with
      | .ok d => (1, some d)
      | .error _ =>
        let r := extractOneTarget t rest
        (r.1 + 1, r.2)
    else extractOneTarget t rest

/-- Bookkeeping of the VPK extraction pass. -/
structure VpkExtract where
  reads : Nat
  writes : List (List Char × List Nat)
  warnings : List (List Char)

/-- Model of `main.extract_vpk_files` (`main.py` lines 294-330, same logic
in `VPKProcessor.extract_target_files`): per target, save the first
successfully read matching entry with the marker stripped, or record a
not-found warning.  Per-target failures never escape the loop. -/
def extract_vpk_files (targets : List (List Char))
    (files : List VpkFileEntry) : VpkExtract :=
  targets.foldl
    (fun acc t =>
      let r := extractOneTarget t files
      match r.2 with
      | some d =>
        ⟨acc.reads + r.1,
         acc.writes ++ [(staticPrefix ++ basename t, trim_bom d)],
         acc.warnings⟩
      | none => ⟨acc.reads + r.1, acc.writes, acc.warnings ++ [t]⟩)
    ⟨0, [], []⟩

/-- External world of one run, fixed before the revision check: the
manifest fetch outcome, the cached directory part at `static/`, and the
`vpk.open` parser for the downloaded directory bytes. -/
structure Env where
  manifest : Except Unit (List ManifestEntry)
  cachedDir : Option (List Nat)
  parseVpk : List Nat → Except Unit VpkDir

/-- Observable outcome of one run from the revision check onward: process
exit code, content fetch calls beyond the metadata lookup, file writes
performed in order, final content of the `manifestId.txt` marker, and
whether the archive path was entered. -/
structure RunResult where
  exitCode : Nat
  fetches : Nat
  writes : List (List Char × List Nat)
  marker : Option (List Char)
  archiveAttempted : Bool

/-- Stored revision id as `main.py` lines 449-452 compute it: the stripped
marker file content, or the empty string when the file is absent
(`utils/file_utils.read_manifest_id`). -/
def existingIdOf (stored : Option (List Char)) : List Char :=
  match stored with
  | some s => pyStrip s
  | none => []

/-- Model of the stale branch of `main` (`main.py` lines 460-500): fetch
the manifest (fatal on failure), try direct extraction, and only when zero
targets were extracted directly run the archive path — directory part,
required indices, archive parts, VPK extraction — then persist the new
revision id.  A fatal directory-part or parse failure aborts before the
marker write with exit code 1. -/
def staleBranch (latestId : List Char) (stored : Option (List Char))
    (env : Env) : RunResult :=
  match env.manifest with
  | .error _ => ⟨1, 1, [], stored, false⟩
  | .ok manifest =>
    let d := extract_files_from_manifest VPK_FILES manifest
    if 0 < d.count then
      ⟨0, 1 + d.reads, d.writes, some latestId, false⟩
    else
      let df := download_vpk_dir manifest env.cachedDir
      match df.result with
      | .error _ =>
        ⟨1, 1 + d.reads + df.reads, d.writes ++ df.writes, stored, true⟩
      | .ok (bytes, _) =>
        match env.parseVpk bytes with
        | .error _ =>
          ⟨1, 1 + d.reads + df.reads, d.writes ++ df.writes, stored, true⟩
        | .ok vd =>
          let req := get_required_archive_indices VPK_FILES vd
          let parts := download_vpk_archives manifest req
          let ex := extract_vpk_files VPK_FILES vd.files
          ⟨0, 1 + d.reads + df.reads + partReads parts + ex.reads,
           d.writes ++ df.writes ++ partWrites parts ++ ex.writes,
           some latestId, true⟩

/-- Model of `main` from the point where the latest revision id is known
(`main.py` lines 447-500): compare the stored id with the latest one, exit
immediately when they agree, otherwise run the stale branch. -/
def runAfterMetadata (latestId : List Char) (stored : Option (List Char))
    (env : Env) : RunResult :=
  if existingIdOf stored = latestId then ⟨0, 0, [], stored, false⟩
  else staleBranch latestId stored env

/-- One line of the end-of-run summary. -/
inductive SummaryLine where
  | found (size : Nat)
  | notFound
deriving DecidableEq

/-- Model of `utils/file_utils.get_file_sizes` (lines 53-71): the directory
is a partial map from filename to on-disk size; a missing file reports
size 0. -/
def get_file_sizes (dir : List Char → Option Nat)
    (filenames : List (List Char)) : List (List Char × Nat) :=
  filenames.map (fun fn => (fn, match dir fn with | some sz => sz | none => 0))

/-- Line rendering of `utils/file_utils.print_file_summary` (lines 85-89):
a positive size prints the size, anything else prints NOT FOUND. -/
def summaryLineOf (sz : Nat) : SummaryLine :=
  if 0 < sz then .found sz else .notFound

/-- Model of `utils/file_utils.print_file_summary` (lines 74-89) as the
list of lines it prints. -/
def print_file_summary (dir : List Char → Option Nat)
    (filenames : List (List Char)) : List (List Char × SummaryLine) :=
  (get_file_sizes dir filenames).map (fun p => (p.1, summaryLineOf p.2))

/-- Directory with one file deleted, used to compare a zero-byte file
against a missing one. -/
def removeFile (dir : List Char → Option Nat) (fn : List Char) :
    List Char → Option Nat :=
  fun g => if g = fn then none else dir g

theorem sentinel_notin_collect_tree (targets : List (List Char))
    (t : List TreeEntry) :
    sentinelIndex ∉ extract_indices_from_tree targets t := by
  induction t with
  | nil => simp [extract_indices_from_tree]
  | cons e rest ih =>
    simp only [extract_indices_from_tree]
    split
    · split
      · split
        · intro h
          rcases List.mem_cons.mp h with h1 | h1
          · rename_i i hne
            exact hne h1.symm
          · exact ih h1
        · exact ih
      · exact ih
    · exact ih

theorem sentinel_notin_collect_iter (targets : List (List Char))
    (fs : List VpkFileEntry) :
    sentinelIndex ∉ extract_indices_from_iteration targets fs := by
  induction fs with
  | nil => simp [extract_indices_from_iteration]
  | cons e rest ih =>
    simp only [extract_indices_from_iteration]
    split
    · split
      · split
        · intro h
          rcases List.mem_cons.mp h with h1 | h1
          · rename_i i hne
            exact hne h1.symm
          · exact ih h1
        · exact ih
      · exact ih
    · exact ih

/-- C2, counterexample: marker-byte stripping is not idempotent on the
concrete buffer made of two consecutive BOM triplets — the first strip
removes the outer marker and exposes a second one, which the second strip
removes as well. -/
theorem C2_strip_not_idempotent_cex :
    trim_bom (trim_bom (bomBytes ++ bomBytes)) ≠ trim_bom (bomBytes ++ bomBytes) := by
  decide

/-- C2, amended: marker-byte stripping is idempotent on every bytes buffer
that does not begin with two consecutive `EF BB BF` triplets; for such a
buffer `trim_bom (trim_bom x) = trim_bom x`. -/
theorem C2_strip_idempotent_amended (x : List Nat)
    (h : x.take 6 ≠ bomBytes ++ bomBytes) :
    trim_bom (trim_bom x) = trim_bom x := by
  by_cases h1 : 3 ≤ x.length ∧ x.take 3 = bomBytes
  · have e1 : trim_bom x = x.drop 3 := by
      simp only [trim_bom]
      rw [if_pos h1]
    rw [e1]
    simp only [trim_bom]
    rw [if_neg]
    intro h2
    apply h
    have e2 : x.take 6 = x.take 3 ++ (x.drop 3).take 3 := by
      have := List.take_add x 3 3
      simpa using this
    rw [e2, h1.2, h2.2]
  · have e1 : trim_bom x = x := by
      simp only [trim_bom]
      rw [if_neg h1]
    rw [e1, e1]

/-- Closed instance discharging the hypothesis of the amended C2 theorem. -/
theorem C2_strip_idempotent_amended_witness :
    ([5, 6, 7] : List Nat).take 6 ≠ bomBytes ++ bomBytes ∧
    trim_bom (trim_bom [5, 6, 7]) = trim_bom [5, 6, 7] :=
  ⟨by decide, C2_strip_idempotent_amended [5, 6, 7] (by decide)⟩

/-- C3: for every target list and every parsed VPK directory — so for any
ordering of its entries and under either strategy — the required archive
index list returned by `get_required_archive_indices` is sorted ascending
and has no duplicates. -/
theorem C3_required_indices_sorted_nodup (targets : List (List Char))
    (d : VpkDir) :
    List.Sorted (· ≤ ·) (get_required_archive_indices targets d) ∧
    (get_required_archive_indices targets d).Nodup := by
  unfold get_required_archive_indices
  exact ⟨Finset.sort_sorted _ _, Finset.sort_nodup _ _⟩

/-- C4: the sentinel part index `0x7FFF = 32767` is never a member of the
required archive index list, for any target list and any parsed VPK
directory, under either the tree strategy or the iteration/error-message
strategy. -/
theorem C4_sentinel_never_required (targets : List (List Char)) (d : VpkDir) :
    32767 ∉ get_required_archive_indices targets d := by
  intro h
  unfold get_required_archive_indices at h
  obtain ⟨tree, files⟩ := d
  cases tree with
  | none =>
    rw [Finset.mem_sort, List.mem_toFinset] at h
    exact sentinel_notin_collect_iter targets files h
  | some t =>
    rw [Finset.mem_sort, List.mem_toFinset] at h
    exact sentinel_notin_collect_tree targets t h

/-- C5: whenever the stored revision id (stripped, empty when absent)
equals the latest revision id, the run exits successfully with exit code 0,
performs zero content fetch calls beyond the metadata lookup, writes no
file, and leaves the stored marker unchanged. -/
theorem C5_up_to_date_run_is_noop (latestId : List Char)
    (stored : Option (List Char)) (env : Env)
    (h : existingIdOf stored = latestId) :
    runAfterMetadata latestId stored env = ⟨0, 0, [], stored, false⟩ := by
  unfold runAfterMetadata
  rw [if_pos h]

/-- Closed instance discharging the hypothesis of the C5 theorem. -/
theorem C5_up_to_date_run_is_noop_witness :
    existingIdOf (some ['1']) = ['1'] ∧
    runAfterMetadata ['1'] (some ['1']) ⟨.ok [], none, fun _ => .error ()⟩ =
      ⟨0, 0, [], some ['1'], false⟩ :=
  ⟨by decide, C5_up_to_date_run_is_noop ['1'] (some ['1']) _ (by decide)⟩

/-- C7: when the directory-part entry is present but its download fails,
the run proceeds with the previously downloaded local copy whenever one
exists, and the failure is fatal exactly when no cached copy exists. -/
theorem C7_dir_download_fallback (manifest : List ManifestEntry)
    (cached : Option (List Nat)) (e : ManifestEntry)
    (hfind : manifest.find?
        (fun x => dirVpkSuffix.isSuffixOf (normalizeSlashes x.filename)) = some e)
    (hread : e.read = .error ()) :
    (download_vpk_dir manifest cached).result =
      (match cached with
       | some c => .ok (c, true)
       | none => .error ()) := by
  simp only [download_vpk_dir, hfind, hread]
  cases cached <;> rfl

/-- Manifest used to instantiate the C7 theorem: the directory part is
present but reading it fails. -/
def c7Manifest : List ManifestEntry :=
  [⟨"csgo/pak01_dir.vpk".toList, .error ()⟩]

/-- Closed instance discharging the hypotheses of the C7 theorem, in both
the cached and the uncached case. -/
theorem C7_dir_download_fallback_witness :
    c7Manifest.find?
        (fun x => dirVpkSuffix.isSuffixOf (normalizeSlashes x.filename)) =
      some ⟨"csgo/pak01_dir.vpk".toList, .error ()⟩ ∧
    (download_vpk_dir c7Manifest (some [9])).result = .ok ([9], true) ∧
    (download_vpk_dir c7Manifest none).result = .error () :=
  ⟨rfl,
   C7_dir_download_fallback c7Manifest (some [9])
     ⟨"csgo/pak01_dir.vpk".toList, .error ()⟩ rfl rfl,
   C7_dir_download_fallback c7Manifest none
     ⟨"csgo/pak01_dir.vpk".toList, .error ()⟩ rfl rfl⟩

/-- C8: the archive-part loop processes every required index — a part with
no manifest entry yields `missing` without stopping the loop — and each
index is resolved independently to the first manifest entry whose raw path
ends with its numbered filename, as `fetchPart` does. -/
theorem C8_archive_parts_lookup_and_skip (manifest : List ManifestEntry)
    (indices : List Nat) :
    download_vpk_archives manifest indices =
      indices.map (fun i => (i, fetchPart manifest i)) ∧
    (download_vpk_archives manifest indices).map Prod.fst = indices := by
  have hmain : download_vpk_archives manifest indices =
      indices.map (fun i => (i, fetchPart manifest i)) := by
    induction indices with
    | nil => rfl
    | cons i rest ih =>
      show (i, fetchPart manifest i) ::
          download_vpk_archives manifest rest =
        (i, fetchPart manifest i) ::
          rest.map (fun j => (j, fetchPart manifest j))
      rw [ih]
  refine ⟨hmain, ?_⟩
  rw [hmain, List.map_map]
  have hcomp : (Prod.fst ∘ fun i : Nat => (i, fetchPart manifest i)) = id := rfl
  rw [hcomp, List.map_id]

/-- C10: in the file-summary utilities an existing zero-byte file is
indistinguishable from a missing one — `get_file_sizes` and the summary
lines are unchanged when the zero-byte file is deleted from the directory,
and the summary reports the zero-byte file as NOT FOUND. -/
theorem C10_zero_size_reported_not_found (dir : List Char → Option Nat)
    (fns : List (List Char)) (fn : List Char)
    (h : dir fn = some 0) (hfn : fn ∈ fns) :
    get_file_sizes dir fns = get_file_sizes (removeFile dir fn) fns ∧
    print_file_summary dir fns = print_file_summary (removeFile dir fn) fns ∧
    (fn, SummaryLine.notFound) ∈ print_file_summary dir fns := by
  have hsz : get_file_sizes dir fns = get_file_sizes (removeFile dir fn) fns := by
    simp only [get_file_sizes]
    apply List.map_congr_left
    intro a _
    by_cases ha : a = fn
    · subst ha
      rw [h]
      simp [removeFile]
    · simp [removeFile, ha]
  refine ⟨hsz, by rw [print_file_summary, hsz, print_file_summary], ?_⟩
  have : print_file_summary dir fns =
      fns.map (fun g =>
        (g, summaryLineOf (match dir g with | some sz => sz | none => 0))) := by
    simp [print_file_summary, get_file_sizes, List.map_map]
  rw [this]
  refine List.mem_map.mpr ⟨fn, hfn, ?_⟩
  rw [h]
  rfl

/-- Directory used to instantiate the C10 theorem: one file present with
size zero. -/
def c10Dir : List Char → Option Nat :=
  fun g => if g = "items_game.txt".toList then some 0 else none

/-- Closed instance discharging the hypotheses of the C10 theorem. -/
theorem C10_zero_size_reported_not_found_witness :
    c10Dir ("items_game.txt".toList) = some 0 ∧
    print_file_summary c10Dir ["items_game.txt".toList] =
      print_file_summary (removeFile c10Dir "items_game.txt".toList)
        ["items_game.txt".toList] ∧
    ("items_game.txt".toList, SummaryLine.notFound) ∈
      print_file_summary c10Dir ["items_game.txt".toList] :=
  ⟨by decide,
   (C10_zero_size_reported_not_found c10Dir ["items_game.txt".toList]
     "items_game.txt".toList (by decide) (by decide)).2.1,
   (C10_zero_size_reported_not_found c10Dir ["items_game.txt".toList]
     "items_game.txt".toList (by decide) (by decide)).2.2⟩

/-- Manifest exhibiting the C1 counterexample: exactly one of the three
target paths is present (and readable) as a direct entry. -/
def c1Manifest : List ManifestEntry :=
  [⟨"resource/csgo_english.txt".toList, .ok [65]⟩]

/-- Environment of the C1 counterexample run. -/
def c1Env : Env := ⟨.ok c1Manifest, none, fun _ => .error ()⟩

/-- C1, counterexample: in a stale run where exactly one of the three
target paths is found and extracted directly, the archive path is NOT
attempted — `extract_files_from_manifest` returns `extracted_count > 0`,
so partial direct success already skips the VPK branch, contradicting the
claim that the archive path is attempted whenever not all targets were
found directly. -/
theorem C1_direct_partial_skips_archive_cex :
    existingIdOf none ≠ ['1'] ∧
    (extract_files_from_manifest VPK_FILES c1Manifest).count = 1 ∧
    VPK_FILES.length = 3 ∧
    (runAfterMetadata ['1'] none c1Env).archiveAttempted = false := by
  decide

/-- C1, amended: in every stale run, the archive path is attempted exactly
when zero target paths were extracted directly from the manifest; any
partial direct success (at least one target extracted) skips the archive
path entirely. -/
theorem C1_archive_path_iff_zero_direct (latestId : List Char)
    (stored : Option (List Char)) (env : Env) (m : List ManifestEntry)
    (hstale : existingIdOf stored ≠ latestId)
    (hm : env.manifest = .ok m) :
    ((runAfterMetadata latestId stored env).archiveAttempted = true ↔
      (extract_files_from_manifest VPK_FILES m).count = 0) := by
  unfold runAfterMetadata
  rw [if_neg hstale]
  simp only [staleBranch, hm]
  by_cases hc : 0 < (extract_files_from_manifest VPK_FILES m).count
  · rw [if_pos hc]
    simp only [RunResult.archiveAttempted]
    constructor
    · intro hfalse
      exact absurd hfalse (by simp)
    · intro h0
      omega
  · rw [if_neg hc]
    have h0 : (extract_files_from_manifest VPK_FILES m).count = 0 := by omega
    constructor
    · intro _
      exact h0
    · intro _
      split
      · rfl
      · split
        · rfl
        · rfl

/-- Environment used to instantiate the amended C1 theorem. -/
def c1wEnv : Env := ⟨.ok [], none, fun _ => .error ()⟩

/-- Closed instance discharging the hypotheses of the amended C1
theorem. -/
theorem C1_archive_path_iff_zero_direct_witness :
    existingIdOf none ≠ ['1'] ∧
    ((runAfterMetadata ['1'] none c1wEnv).archiveAttempted = true ↔
      (extract_files_from_manifest VPK_FILES []).count = 0) :=
  ⟨by decide,
   C1_archive_path_iff_zero_direct ['1'] none c1wEnv [] (by decide) rfl⟩

/-- C9: every stale run that reaches the extraction stage — either because
at least one target was extracted directly, or because the directory part
was obtained and parsed — ends with the new revision id persisted to the
marker and exit code 0, for every combination of per-target extraction
outcomes carried by the environment. -/
theorem C9_marker_persisted_despite_failures (latestId : List Char)
    (stored : Option (List Char)) (env : Env) (m : List ManifestEntry)
    (hm : env.manifest = .ok m)
    (hstale : existingIdOf stored ≠ latestId)
    (hreach : 0 < (extract_files_from_manifest VPK_FILES m).count ∨
      ∃ b u vd, (download_vpk_dir m env.cachedDir).result = .ok (b, u) ∧
        env.parseVpk b = .ok vd) :
    (runAfterMetadata latestId stored env).marker = some latestId ∧
    (runAfterMetadata latestId stored env).exitCode = 0 := by
  unfold runAfterMetadata
  rw [if_neg hstale]
  simp only [staleBranch, hm]
  by_cases hc : 0 < (extract_files_from_manifest VPK_FILES m).count
  · rw [if_pos hc]
    exact ⟨rfl, rfl⟩
  · rw [if_neg hc]
    rcases hreach with hdirect | ⟨b, u, vd, hdf, hparse⟩
    · exact absurd hdirect hc
    · simp only [hdf, hparse]
      exact ⟨trivial, trivial⟩

/-- Manifest of the C9 witness run: only the directory part is present. -/
def c9Manifest : List ManifestEntry :=
  [⟨"csgo/pak01_dir.vpk".toList, .ok [1]⟩]

/-- Parsed VPK directory of the C9 witness run: the single matching entry
for a target fails to read, so extraction fails for every target. -/
def c9Vpk : VpkDir :=
  ⟨none, [⟨"resource/csgo_english.txt".toList, none, .otherError, .error ()⟩]⟩

/-- Environment of the C9 witness run. -/
def c9Env : Env := ⟨.ok c9Manifest, none, fun _ => .ok c9Vpk⟩

/-- Closed instance discharging the hypotheses of the C9 theorem, on a run
in which every per-target extraction fails (all three targets end in the
warning list) yet the marker is still persisted. -/
theorem C9_marker_persisted_despite_failures_witness :
    existingIdOf none ≠ ['2'] ∧
    (extract_vpk_files VPK_FILES c9Vpk.files).warnings.length = 3 ∧
    (runAfterMetadata ['2'] none c9Env).marker = some ['2'] ∧
    (runAfterMetadata ['2'] none c9Env).exitCode = 0 :=
  ⟨by decide, by decide,
   (C9_marker_persisted_despite_failures ['2'] none c9Env c9Manifest rfl
     (by decide) (.inr ⟨[1], false, c9Vpk, rfl, rfl⟩)).1,
   (C9_marker_persisted_despite_failures ['2'] none c9Env c9Manifest rfl
     (by decide) (.inr ⟨[1], false, c9Vpk, rfl, rfl⟩)).2⟩

theorem digitChar_spec : ∀ d, d < 10 →
    (digitChar d).isDigit = true ∧ charToDigit (digitChar d) = d := by
  decide

theorem natToDecimal_digits (n : Nat) :
    ∀ c ∈ natToDecimal n, c.isDigit = true := by
  induction n using Nat.strong_induction_on with
  | _ n ih =>
    intro c hc
    rw [natToDecimal] at hc
    split at hc
    · rename_i h
      simp only [List.mem_singleton] at hc
      subst hc
      exact (digitChar_spec n h).1
    · rename_i h
      rcases List.mem_append.mp hc with h1 | h1
      · exact ih (n / 10) (Nat.div_lt_self (by omega) (by omega)) c h1
      · simp only [List.mem_singleton] at h1
        subst h1
        exact (digitChar_spec (n % 10) (Nat.mod_lt n (by omega))).1

theorem digitsVal_natToDecimal (n : Nat) :
    digitsVal (natToDecimal n) = n := by
  induction n using Nat.strong_induction_on with
  | _ n ih =>
    rw [natToDecimal]
    split
    · rename_i h
      simp only [digitsVal, List.foldl]
      simpa using (digitChar_spec n h).2
    · rename_i h
      rw [digitsVal, List.foldl_append]
      have ihv : List.foldl (fun a c => a * 10 + charToDigit c) 0
          (natToDecimal (n / 10)) = n / 10 :=
        ih (n / 10) (Nat.div_lt_self (by omega) (by omega))
      rw [ihv]
      simp only [List.foldl]
      rw [(digitChar_spec (n % 10) (Nat.mod_lt n (by omega))).2]
      omega

theorem natToDecimal_len1 (n : Nat) (h : n < 10) :
    (natToDecimal n).length = 1 := by
  rw [natToDecimal, dif_pos h]
  rfl

theorem natToDecimal_len_le2 (n : Nat) (h : n < 100) :
    (natToDecimal n).length ≤ 2 := by
  rw [natToDecimal]
  by_cases h1 : n < 10
  · rw [dif_pos h1]
    simp
  · rw [dif_neg h1, List.length_append]
    have := natToDecimal_len1 (n / 10) (by omega)
    simp [this]

theorem natToDecimal_len_le3 (n : Nat) (h : n < 1000) :
    (natToDecimal n).length ≤ 3 := by
  rw [natToDecimal]
  by_cases h1 : n < 10
  · rw [dif_pos h1]
    simp
  · rw [dif_neg h1, List.length_append]
    have := natToDecimal_len_le2 (n / 10) (by omega)
    simp only [List.length_singleton]
    omega

theorem pad3_length (n : Nat) (h : n < 1000) : (pad3 n).length = 3 := by
  unfold pad3
  rw [List.length_append, List.length_replicate]
  have := natToDecimal_len_le3 n h
  omega

theorem pad3_digits (n : Nat) : ∀ c ∈ pad3 n, c.isDigit = true := by
  intro c hc
  unfold pad3 at hc
  rcases List.mem_append.mp hc with h1 | h1
  · have := List.eq_of_mem_replicate h1
    subst this
    decide
  · exact natToDecimal_digits n c h1

theorem foldl_digits_zeros (k : Nat) :
    List.foldl (fun a c => a * 10 + charToDigit c) 0 (List.replicate k '0') = 0 := by
  induction k with
  | zero => rfl
  | succ k ih =>
    rw [List.replicate_succ, List.foldl_cons]
    exact ih

theorem pad3_val (n : Nat) : digitsVal (pad3 n) = n := by
  unfold pad3
  rw [digitsVal, List.foldl_append, foldl_digits_zeros]
  exact digitsVal_natToDecimal n

theorem takeWhile_append_all (p : Char → Bool) (l1 l2 : List Char)
    (h : ∀ c ∈ l1, p c = true) :
    (l1 ++ l2).takeWhile p = l1 ++ l2.takeWhile p := by
  induction l1 with
  | nil => rfl
  | cons a as ih =>
    have ha : p a = true := h a (List.mem_cons_self a as)
    rw [List.cons_append, List.takeWhile_cons_of_pos ha,
      ih (fun c hc => h c (List.mem_cons_of_mem a hc))]
    rfl

theorem prefixOf_append_self (p t : List Char) :
    p.isPrefixOf (p ++ t) = true := by
  induction p with
  | nil => cases t <;> rfl
  | cons a as ih => simp [List.isPrefixOf, ih]

theorem matchAt_hit (n : Nat) (hn : n < 1000) (suf : List Char) :
    matchAt (pak01Lit ++ (pad3 n ++ (vpkExtLit ++ suf))) = some n := by
  have h6 : pak01Lit.length = 6 := rfl
  have e1 : (pak01Lit ++ (pad3 n ++ (vpkExtLit ++ suf))).take 6 = pak01Lit := by
    rw [← h6, List.take_left]
  have e2 : (pak01Lit ++ (pad3 n ++ (vpkExtLit ++ suf))).drop 6 =
      pad3 n ++ (vpkExtLit ++ suf) := by
    rw [← h6, List.drop_left]
  have eemp : (vpkExtLit ++ suf).takeWhile Char.isDigit = [] := by
    have hsplit : vpkExtLit ++ suf = '.' :: ("vpk".toList ++ suf) := rfl
    rw [hsplit, List.takeWhile_cons_of_neg]
    decide
  have e3 : (pad3 n ++ (vpkExtLit ++ suf)).takeWhile Char.isDigit = pad3 n := by
    rw [takeWhile_append_all Char.isDigit (pad3 n) (vpkExtLit ++ suf)
      (pad3_digits n), eemp, List.append_nil]
  have e4 : (pad3 n ++ (vpkExtLit ++ suf)).drop 3 = vpkExtLit ++ suf := by
    have h3 := pad3_length n hn
    rw [← h3]
    exact List.drop_left _ _
  have e5 : (vpkExtLit ++ suf).take 4 = vpkExtLit := by
    have h4 : vpkExtLit.length = 4 := rfl
    rw [← h4, List.take_left]
  simp only [matchAt, e1, e2, e3, e4, e5, pad3_length n hn, pad3_val n]
  simp

theorem searchPak_head (s : List Char) (hne : s ≠ []) (k : Nat)
    (hm : matchAt s = some k) : searchPak s = some k := by
  cases s with
  | nil => exact absurd rfl hne
  | cons c cs => rw [searchPak, hm]

theorem searchPak_skip (l1 l2 : List Char)
    (h : ∀ i, i < l1.length → matchAt ((l1 ++ l2).drop i) = none) :
    searchPak (l1 ++ l2) = searchPak l2 := by
  induction l1 with
  | nil => rfl
  | cons c cs ih =>
    have h0 : matchAt (c :: (cs ++ l2)) = none := h 0 (by simp)
    rw [List.cons_append, searchPak, h0]
    exact ih (fun i hi => h (i + 1) (by simpa using Nat.succ_lt_succ hi))

theorem recover_hit (pre suf : List Char) (n : Nat) (hn : n < 1000)
    (hfirst : ∀ i, i < pre.length →
      ((pre ++ (pak01Lit ++ (pad3 n ++ (vpkExtLit ++ suf)))).drop i).take 6 ≠
        pak01Lit) :
    recover_index_from_error
      (pre ++ (pak01Lit ++ (pad3 n ++ (vpkExtLit ++ suf)))) = some n := by
  have hc1 : containsSub
      (pre ++ (pak01Lit ++ (pad3 n ++ (vpkExtLit ++ suf)))) pak01Lit = true := by
    unfold containsSub
    rw [List.any_eq_true]
    refine ⟨pre.length, List.mem_range.mpr ?_, ?_⟩
    · rw [List.length_append]
      omega
    · rw [List.drop_left]
      exact prefixOf_append_self _ _
  have hassoc : pre ++ (pak01Lit ++ (pad3 n ++ (vpkExtLit ++ suf))) =
      (pre ++ (pak01Lit ++ pad3 n)) ++ (vpkExtLit ++ suf) := by
    simp [List.append_assoc]
  have hc2 : containsSub
      (pre ++ (pak01Lit ++ (pad3 n ++ (vpkExtLit ++ suf)))) vpkExtLit = true := by
    unfold containsSub
    rw [List.any_eq_true]
    refine ⟨(pre ++ (pak01Lit ++ pad3 n)).length, List.mem_range.mpr ?_, ?_⟩
    · rw [hassoc]
      simp only [List.length_append]
      omega
    · rw [hassoc, List.drop_left]
      exact prefixOf_append_self _ _
  have hsearch : searchPak
      (pre ++ (pak01Lit ++ (pad3 n ++ (vpkExtLit ++ suf)))) = some n := by
    rw [searchPak_skip pre (pak01Lit ++ (pad3 n ++ (vpkExtLit ++ suf)))
      (fun i hi => by
        simp only [matchAt]
        rw [if_neg (hfirst i hi)])]
    apply searchPak_head
    · simp [pak01Lit]
    · exact matchAt_hit n hn suf
  unfold recover_index_from_error
  rw [hc1, hc2, hsearch]
  rfl

/-- C6: Strategy B recovery — whenever the metadata gives no archive index
through the normal field path and the lookup raises `FileNotFoundError`
whose text contains the token `pak01_` (at exactly one position) followed
by the zero-padded 3-digit decimal number NNN and the `.vpk` extension
token, `_get_archive_index_multiple_methods` returns the integer value of
NNN. -/
theorem C6_error_message_recovery (meta : Option FileMeta)
    (hmeta : ∀ fm, meta = some fm → fm.archive_index = none)
    (pre suf : List Char) (n : Nat) (hn : n < 1000)
    (hfirst : ∀ i, i < pre.length →
      ((pre ++ (pak01Lit ++ (pad3 n ++ (vpkExtLit ++ suf)))).drop i).take 6 ≠
        pak01Lit) :
    get_archive_index_multiple_methods meta
      (.fileNotFound (pre ++ (pak01Lit ++ (pad3 n ++ (vpkExtLit ++ suf))))) =
      some n := by
  have hrec := recover_hit pre suf n hn hfirst
  cases meta with
  | none => exact hrec
  | some fm =>
    have hnone := hmeta fm rfl
    simp only [get_archive_index_multiple_methods,
      get_archive_index_from_metadata, hnone]
    exact hrec

/-- Closed instance discharging the hypotheses of the C6 theorem: the
message `file pak01_354.vpk missing` recovers index 354. -/
theorem C6_error_message_recovery_witness :
    (354 : Nat) < 1000 ∧
    get_archive_index_multiple_methods none
      (.fileNotFound ("file ".toList ++
        (pak01Lit ++ (pad3 354 ++ (vpkExtLit ++ " missing".toList))))) =
      some 354 :=
  ⟨by omega,
   C6_error_message_recovery none (fun fm h => by cases h)
     "file ".toList " missing".toList 354 (by omega) (by decide)⟩
